import Mathlib

/-!
Verification of the coolpyterm terminal-emulator core against its
natural-language specification.

The Lean definitions below are shallow embeddings of the Python source:

* `add_to_scrollback`, `processDirty`, `handle_escape_sequences`,
  `update_cursor` embed `TerminalWithHardwareGrid` methods of
  `coolpyterm/cpt.py`;
* `init_grid`, `resize_grid`, `set_char`, `get_char`,
  `set_cursor_position`, `resizeEvent` embed `OpenGLRetroGridWidget`
  methods of `coolpyterm/opengl_grid_widget.py`;
* `handle_key_event` (with its helpers) embeds
  `KeyHandler.handle_key_event` of `coolpyterm/key_handler_ssh.py`;
* `safe_feed` embeds the exception-classifying wrapper built in
  `TerminalWithHardwareGrid._create_safe_pyte_stream`;
* `pstep`/`pfeed` are modelled from the spec (the byte-stream parser is
  the external pyte library, not part of the repository sources).

Python lists become Lean `List`s, in-place loops become folds, Python
ints that may be negative become `Int`, `None`-able values become
`Option`.
-/

namespace CoolPyTerm

/-! ## Cells, themes and grids (`opengl_grid_widget.py`) -/

/-- Rendering colors are opaque to the core (they are resolved by the
theme manager); we model a color as an abstract identifier. -/
abbrev Color := Nat

/-- A theme exposes the default foreground/background colors used by
`init_grid` and `set_char` (`self.current_theme.foreground` /
`.background`). -/
structure Theme where
  foreground : Color
  background : Color
  deriving DecidableEq, Repr

/-- One cell of the character grid: the Python dict
`{'char': c, 'fg_color': fg, 'bg_color': bg, 'bold': b, 'underline': u}`
built in `init_grid` / `set_char`. -/
structure GridCell where
  char : Char
  fg_color : Color
  bg_color : Color
  bold : Bool
  underline : Bool
  deriving DecidableEq, Repr

/-- The blank cell that `init_grid` fills the grid with: a space with
the current theme's default colors and no attributes. -/
def blankCell (t : Theme) : GridCell :=
  { char := ' ', fg_color := t.foreground, bg_color := t.background,
    bold := false, underline := false }

/-- `OpenGLRetroGridWidget.init_grid`: a fresh `rows × cols` grid of
blank cells. -/
def init_grid (rows cols : Nat) (t : Theme) : List (List GridCell) :=
  List.replicate rows (List.replicate cols (blankCell t))

/-- Cell accessor used to state grid properties (Python `grid[r][c]`);
the default value is irrelevant whenever `r`, `c` are in bounds. -/
def cellAt (g : List (List GridCell)) (r c : Nat) : GridCell :=
  (g.getD r []).getD c (blankCell ⟨0, 0⟩)

/-- The body of the inner copy loop of
`OpenGLRetroGridWidget.resize_grid`:
`self.grid[row][col] = old_grid[row][col]`. -/
def copyCell (old_grid : List (List GridCell)) (row : Nat)
    (g : List (List GridCell)) (col : Nat) : List (List GridCell) :=
  g.set row ((g.getD row []).set col (cellAt old_grid row col))

/-- The inner copy loop of `OpenGLRetroGridWidget.resize_grid`:
`for col in range(copy_cols): self.grid[row][col] = old_grid[row][col]`. -/
def copyRow (old_grid : List (List GridCell)) (copy_cols : Nat)
    (g : List (List GridCell)) (row : Nat) : List (List GridCell) :=
  (List.range copy_cols).foldl (copyCell old_grid row) g

/-- `OpenGLRetroGridWidget.resize_grid`: remembers the old grid, builds
a fresh `new_rows × new_cols` grid with `init_grid`, then runs the two
copy loops
`for row in range(copy_rows): for col in range(copy_cols):
  self.grid[row][col] = old_grid[row][col]`
with `copy_rows = min(old_rows, new_rows)`,
`copy_cols = min(old_cols, new_cols)`, where
`old_rows = len(old_grid)` and `old_cols = len(old_grid[0])`. -/
def resize_grid (old_grid : List (List GridCell)) (new_cols new_rows : Nat)
    (t : Theme) : List (List GridCell) :=
  let old_rows := old_grid.length
  let old_cols := (old_grid.headD []).length
  let copy_rows := min old_rows new_rows
  let copy_cols := min old_cols new_cols
  (List.range copy_rows).foldl (copyRow old_grid copy_cols)
    (init_grid new_rows new_cols t)

/-- The widget state relevant to the per-cell API: `self.rows`,
`self.cols` and `self.grid`. -/
structure GridWidget where
  rows : Nat
  cols : Nat
  grid : List (List GridCell)
  deriving DecidableEq, Repr

/-- `OpenGLRetroGridWidget.set_char`: guarded by
`0 <= row < self.rows and 0 <= col < self.cols`; inside the bounds the
cell is replaced (with `fg_color or theme.foreground` defaulting), and
outside the bounds nothing at all happens.  Coordinates are `Int`
because Python callers may pass negative numbers. -/
def set_char (w : GridWidget) (t : Theme) (row col : Int) (char : Char)
    (fg_color bg_color : Option Color) (bold underline : Bool) : GridWidget :=
  if 0 ≤ row ∧ row < (w.rows : Int) ∧ 0 ≤ col ∧ col < (w.cols : Int) then
    { w with grid :=
        w.grid.set row.toNat ((w.grid.getD row.toNat []).set col.toNat
          { char := char,
            fg_color := fg_color.getD t.foreground,
            bg_color := bg_color.getD t.background,
            bold := bold, underline := underline }) }
  else w

/-- `OpenGLRetroGridWidget.get_char`: returns the cell inside the
bounds and Python `None` (here `Option.none`) outside them. -/
def get_char (w : GridWidget) (row col : Int) : Option GridCell :=
  if 0 ≤ row ∧ row < (w.rows : Int) ∧ 0 ≤ col ∧ col < (w.cols : Int) then
    some (cellAt w.grid row.toNat col.toNat)
  else none

/-- `OpenGLRetroGridWidget.set_cursor_position`: clamps with
`max(0, min(row, self.rows - 1))` / `max(0, min(col, self.cols - 1))`.
Arguments are `Int` since the incoming row may be negative. -/
def set_cursor_position (rows cols : Nat) (row col : Int) : Int × Int :=
  (max 0 (min row ((rows : Int) - 1)), max 0 (min col ((cols : Int) - 1)))

/-- `OpenGLRetroGridWidget.resizeEvent`: recomputes
`new_cols = max(1, width // char_width)`,
`new_rows = max(1, height // char_height)` from the pixel size and
resizes the grid only when a dimension changed.  Returns the new
`(cols, rows, grid)` triple. -/
def resizeEvent (cols rows : Nat) (g : List (List GridCell))
    (widthPx heightPx char_width char_height : Nat) (t : Theme) :
    Nat × Nat × List (List GridCell) :=
  let new_cols := max 1 (widthPx / char_width)
  let new_rows := max 1 (heightPx / char_height)
  if new_cols ≠ cols ∨ new_rows ≠ rows then
    (new_cols, new_rows, resize_grid g new_cols new_rows t)
  else (cols, rows, g)

/-! ## Scrollback (`cpt.py`) -/

/-- A scrollback entry: one screen row, i.e. a pyte buffer line.  Its
internal structure is irrelevant to the scrollback store; we keep the
characters. -/
abbrev Row := List Char

/-- `self.max_scrollback_size = 1000` (`TerminalWithHardwareGrid.__init__`). -/
def max_scrollback_size : Nat := 1000

/-- `TerminalWithHardwareGrid.add_to_scrollback`:
`if len(self.scrollback_buffer) >= self.max_scrollback_size:
   self.scrollback_buffer.pop(0)`
then `self.scrollback_buffer.append(line)`. -/
def add_to_scrollback (scrollback_buffer : List Row) (line : Row) : List Row :=
  if max_scrollback_size ≤ scrollback_buffer.length then
    scrollback_buffer.drop 1 ++ [line]
  else
    scrollback_buffer ++ [line]

/-- The scrollback section of `TerminalWithHardwareGrid.update_ui`:
`if not self.in_alternate_screen:` drain `self.screen.dirty`, and for
every drained index `< len(self.screen.buffer)` push that buffer line
with `add_to_scrollback`.  The dirty set is modelled as the list of
indices in the order they are drained. -/
def processDirty (in_alternate_screen : Bool) (dirty : List Nat)
    (buffer : List Row) (scrollback_buffer : List Row) : List Row :=
  if in_alternate_screen then scrollback_buffer
  else
    dirty.foldl
      (fun acc line_index =>
        if h : line_index < buffer.length then
          add_to_scrollback acc (buffer.get ⟨line_index, h⟩)
        else acc)
      scrollback_buffer

/-! ## Alternate-screen flag (`cpt.py`) -/

/-- Does the character list start with `needle`?  (Building block of the
Python substring test `needle in data_str`.) -/
def matchHere : List Char → List Char → Bool
  | [], _ => true
  | _ :: _, [] => false
  | n :: ns, h :: hs => n == h && matchHere ns hs

/-- Python's substring containment `needle in haystack`. -/
def containsSeq (needle : List Char) : List Char → Bool
  | [] => matchHere needle []
  | h :: t => matchHere needle (h :: t) || containsSeq needle t

/-- The literal marker `"\x1b[?1049h"` searched for by
`handle_escape_sequences`. -/
def altOnSeq : List Char := [Char.ofNat 27, '[', '?', '1', '0', '4', '9', 'h']

/-- The literal marker `"\x1b[?1049l"` searched for by
`handle_escape_sequences`. -/
def altOffSeq : List Char := [Char.ofNat 27, '[', '?', '1', '0', '4', '9', 'l']

/-- `self.in_alternate_screen = False` (`TerminalWithHardwareGrid.__init__`):
the session starts on the primary screen. -/
def initial_in_alternate_screen : Bool := false

/-- `TerminalWithHardwareGrid.handle_escape_sequences`: a per-chunk
substring search — `if "\x1b[?1049h" in data_str: ... = True
elif "\x1b[?1049l" in data_str: ... = False`.  Returns the new value of
`self.in_alternate_screen` given the chunk and the current flag. -/
def handle_escape_sequences (data_str : List Char)
    (in_alternate_screen : Bool) : Bool :=
  if containsSeq altOnSeq data_str then true
  else if containsSeq altOffSeq data_str then false
  else in_alternate_screen

/-! ## Cursor update (`cpt.py`) -/

/-- `TerminalWithHardwareGrid.update_cursor`: in alternate-screen mode
the pyte cursor is used directly; otherwise the cursor is the pyte
cursor re-anchored to the bottom of the widget
(`cursor_row = widget_rows - (screen_lines - cursor_y)`, which can be
negative).  Both coordinates are then clamped with
`max(0, min(v, limit - 1))` and handed to `set_cursor_position`, which
clamps once more. -/
def update_cursor (in_alternate_screen : Bool)
    (screen_lines cursor_y cursor_x : Int) (gridRows gridCols : Nat) :
    Int × Int :=
  let cursor_row : Int :=
    if in_alternate_screen then cursor_y
    else (gridRows : Int) - (screen_lines - cursor_y)
  let cursor_col : Int := cursor_x
  let r := max 0 (min cursor_row ((gridRows : Int) - 1))
  let c := max 0 (min cursor_col ((gridCols : Int) - 1))
  set_cursor_position gridRows gridCols r c

/-! ## The safe feed wrapper (`cpt.py`) -/

/-- Classification of the exceptions the wrapped `stream.feed` can
raise: a `TypeError` (whose message may or may not contain
`'unexpected keyword argument'`) or any other exception. -/
inductive FeedExn
  | typeError (kwargMismatch : Bool)
  | otherExn
  deriving DecidableEq, Repr

/-- An exception caused by protocol input rather than by a host
programming error: pyte raises keyword-argument `TypeError`s (version
incompatibilities triggered by escape sequences) and generic exceptions
while parsing; a `TypeError` whose message does not mention a keyword
argument can only come from the host violating the call contract. -/
def isProtocolExn : Option FeedExn → Bool
  | none => true
  | some (.typeError kwargMismatch) => kwargMismatch
  | some .otherExn => true

/-- The `safe_feed` closure built in
`TerminalWithHardwareGrid._create_safe_pyte_stream`: returns early when
closing; swallows `TypeError`s with `'unexpected keyword argument'` in
the message; re-raises other `TypeError`s; swallows every other
exception.  The result is the exception (if any) that crosses the
boundary to the caller. -/
def safe_feed (is_closing : Bool) (inner : Option FeedExn) : Option FeedExn :=
  if is_closing then none
  else
    match inner with
    | none => none
    | some (.typeError kwargMismatch) =>
        if kwargMismatch then none else some (.typeError false)
    | some .otherExn => none

/-! ## The escape-sequence parser, modelled from the spec -/

/-- Modelled from the spec: the typed commands the EscapeSequenceParser
of §4.1 emits (the byte-stream parser itself is the external pyte
library, so it is not under the repository's sources). -/
inductive Command
  | print (b : Nat)
  | control (b : Nat)
  | escDispatch (b : Nat)
  | csi (final : Nat) (params : List Nat) (priv : Bool)
  | osc (s : List Nat)
  deriving DecidableEq, Repr

/-- Modelled from the spec: the parser states of §4.1 — `Ground`,
`Escape`, `CSI` parameter accumulation (with the private `?` marker and
the `;`-separated parameter slots, bounded at 16), `OSC-String`
accumulation until `BEL` or `ESC \`. -/
inductive PState
  | ground
  | escape
  | csiParam (priv : Bool) (params : List Nat) (cur : Nat)
  | oscString (acc : List Nat)
  | oscEsc (acc : List Nat)
  deriving DecidableEq, Repr

/-- Modelled from the spec: the `Ground` transition of §4.1 — `ESC`
enters `Escape`, other C0 bytes are emitted as `Control` immediately,
`DEL` is ignored, everything else is printable. -/
def groundStep (b : Nat) : PState × List Command :=
  if b = 27 then (.escape, [])
  else if b ≤ 31 then (.ground, [.control b])
  else if b = 127 then (.ground, [])
  else (.ground, [.print b])

/-- Modelled from the spec: the `Escape` transition of §4.1 — `[` opens
a CSI sequence, `]` opens an OSC string, a repeated `ESC` stays in
`Escape`, `CAN`/`SUB` force a reset to `Ground`, and any other byte is
a short escape dispatched immediately. -/
def escapeStep (b : Nat) : PState × List Command :=
  if b = 91 then (.csiParam false [] 0, [])
  else if b = 93 then (.oscString [], [])
  else if b = 27 then (.escape, [])
  else if b = 24 ∨ b = 26 then (.ground, [])
  else (.ground, [.escDispatch b])

/-- Modelled from the spec: one byte-at-a-time transition of the §4.1
state machine.  In `CSI` accumulation digits extend the current
parameter, `;` advances to the next slot (slots beyond 16 are dropped),
`?` sets the private marker, a final byte in `0x40–0x7E` emits the
`CSI` command, `ESC` aborts to `Escape`, `CAN`/`SUB` reset to `Ground`,
and any other unexpected byte aborts the pending sequence and is
reprocessed from `Ground`.  `OSC` accumulates until `BEL` or `ESC \`. -/
def pstep : PState → Nat → PState × List Command
  | .ground, b => groundStep b
  | .escape, b => escapeStep b
  | .csiParam priv params cur, b =>
    if 48 ≤ b ∧ b ≤ 57 then (.csiParam priv params (cur * 10 + (b - 48)), [])
    else if b = 59 then
      (if params.length < 16 then .csiParam priv (params ++ [cur]) 0
       else .csiParam priv params 0, [])
    else if b = 63 then (.csiParam true params cur, [])
    else if 64 ≤ b ∧ b ≤ 126 then
      (.ground, [.csi b (params ++ [cur]) priv])
    else if b = 27 then (.escape, [])
    else if b = 24 ∨ b = 26 then (.ground, [])
    else groundStep b
  | .oscString acc, b =>
    if b = 7 then (.ground, [.osc acc])
    else if b = 27 then (.oscEsc acc, [])
    else (.oscString (acc ++ [b]), [])
  | .oscEsc acc, b =>
    if b = 92 then (.ground, [.osc acc]) else escapeStep b

/-- Modelled from the spec: `feed` consumes an arbitrary-length byte
chunk, carrying the parser state across calls (the §4.1 restart
guarantee), and returns the final state together with all commands
emitted. -/
def pfeed (s : PState) : List Nat → PState × List Command
  | [] => (s, [])
  | b :: rest =>
    let r := pstep s b
    let r' := pfeed r.1 rest
    (r'.1, r.2 ++ r'.2)

/-! ## Key-to-byte mapping (`key_handler_ssh.py`) -/

/-- The Qt key codes that `KeyHandler.handle_key_event` dispatches on.
`k1` … `k9` stand for `Qt.Key.Key_1` … `Key_9` (theme shortcuts). -/
inductive QtKey
  | kReturn | kEnter | kEscape | kBackspace | kTab
  | kUp | kDown | kRight | kLeft
  | kF1 | kF2 | kF3 | kF4 | kF5 | kF6 | kF7 | kF8 | kF9 | kF10 | kF11 | kF12
  | kInsert | kDelete | kHome | kEnd | kPageUp | kPageDown
  | kA | kB | kC | kD | kE | kG | kI | kK | kL | kM | kN | kO | kQ | kR
  | kS | kU | kV | kW | kZ
  | kDigit (d : Nat)
  deriving DecidableEq, Repr

/-- The key event fields `handle_key_event` reads: the key, the three
modifier flags and `event.text()` (as UTF-8 bytes). -/
structure KeyEvent where
  key : QtKey
  ctrl : Bool
  alt : Bool
  shift : Bool
  text : List Nat
  deriving DecidableEq, Repr

/-- Position of a letter key in `Key_A .. Key_Z`, used by the generic
`chr(key - Qt.Key.Key_A + 1)` Ctrl branch.  `none` for non-letters. -/
def letterIndex : QtKey → Option Nat
  | .kA => some 0 | .kB => some 1 | .kC => some 2 | .kD => some 3
  | .kE => some 4 | .kG => some 6 | .kI => some 8 | .kK => some 10
  | .kL => some 11 | .kM => some 12 | .kN => some 13 | .kO => some 14
  | .kQ => some 16 | .kR => some 17 | .kS => some 18 | .kU => some 20
  | .kV => some 21 | .kW => some 22 | .kZ => some 25
  | _ => none

/-- `KeyHandler.is_theme_shortcut`: Ctrl (without Alt/Shift) plus one
of `Key_1 … Key_9`. -/
def is_theme_shortcut (e : KeyEvent) : Bool :=
  e.ctrl && !e.alt && !e.shift &&
    (match e.key with
     | .kDigit d => decide (1 ≤ d ∧ d ≤ 9)
     | _ => false)

/-- `KeyHandler.is_fullscreen_toggle`: Ctrl+Alt+F11. -/
def is_fullscreen_toggle (e : KeyEvent) : Bool :=
  (e.key == .kF11) && e.ctrl && e.alt

/-- `KeyHandler.should_handle_locally`: theme shortcuts, the fullscreen
toggle, all Ctrl+Alt combinations, Ctrl+Shift+A, and the Ctrl-only
application shortcuts G/S/M/N/Q/V are kept by the application instead
of being sent to the backend. -/
def should_handle_locally (e : KeyEvent) : Bool :=
  if is_theme_shortcut e then true
  else if is_fullscreen_toggle e then true
  else if e.ctrl && e.alt then true
  else if e.ctrl && e.shift && (e.key == .kA) then true
  else if e.ctrl && !e.alt && !e.shift &&
      (e.key == .kG || e.key == .kS || e.key == .kM || e.key == .kN ||
       e.key == .kQ || e.key == .kV) then true
  else false

/-- The `special_keys` dictionary of `KeyHandler.handle_key_event`,
mapping named keys to literal escape-sequence byte strings (`27` is
`ESC`). -/
def special_keys : QtKey → Option (List Nat)
  | .kReturn => some [13]
  | .kEnter => some [13]
  | .kEscape => some [27]
  | .kUp => some [27, 91, 65]
  | .kDown => some [27, 91, 66]
  | .kRight => some [27, 91, 67]
  | .kLeft => some [27, 91, 68]
  | .kF1 => some [27, 79, 80]
  | .kF2 => some [27, 79, 81]
  | .kF3 => some [27, 79, 82]
  | .kF4 => some [27, 79, 83]
  | .kF5 => some [27, 91, 49, 53, 126]
  | .kF6 => some [27, 91, 49, 55, 126]
  | .kF7 => some [27, 91, 49, 56, 126]
  | .kF8 => some [27, 91, 49, 57, 126]
  | .kF9 => some [27, 91, 50, 48, 126]
  | .kF10 => some [27, 91, 50, 49, 126]
  | .kF11 => some [27, 91, 50, 51, 126]
  | .kF12 => some [27, 91, 50, 52, 126]
  | .kInsert => some [27, 91, 50, 126]
  | .kDelete => some [27, 91, 51, 126]
  | .kHome => some [27, 91, 72]
  | .kEnd => some [27, 91, 70]
  | .kPageUp => some [27, 91, 53, 126]
  | .kPageDown => some [27, 91, 54, 126]
  | .kTab => some [9]
  | _ => none

/-- The tail of `KeyHandler.handle_key_event` reached when no Ctrl
branch fired: the Alt+text branch, the `special_keys` table and the
plain-text branch, in the order of the Python code. -/
def handleKeyTail (e : KeyEvent) : Option (List Nat) :=
  if e.alt && !e.ctrl && !e.text.isEmpty then some (27 :: e.text)
  else
    match special_keys e.key with
    | some seq => some seq
    | none =>
      if !e.text.isEmpty && !e.ctrl && !e.alt then some e.text
      else none

/-- `KeyHandler.handle_key_event`: returns the byte string sent to the
backend, or `none` when the event is passed back to the application.
`has_pty` distinguishes the Windows backend (`hasattr(..,'pty_process')`)
for the backspace special case.  Branch order follows the Python code:
local handling, backspace, explicit Ctrl branches then the generic
Ctrl+letter branch (whose reserved keys fall through), then
`handleKeyTail`. -/
def handle_key_event (e : KeyEvent) (has_pty : Bool) : Option (List Nat) :=
  if should_handle_locally e then none
  else if e.key == .kBackspace then
    if has_pty then some ([27, 91, 68] ++ [27, 91, 51, 126])
    else some [8]
  else if e.ctrl && !e.alt && !(is_theme_shortcut e) then
    match e.key with
    | .kC => some [3]
    | .kD => some [4]
    | .kZ => some [26]
    | .kL => some [12]
    | .kA => some [1]
    | .kE => some [5]
    | .kK => some [11]
    | .kU => some [21]
    | .kW => some [23]
    | .kR => some [18]
    | k =>
      match letterIndex k with
      | some i =>
        if k == .kG || k == .kS || k == .kM || k == .kN || k == .kQ ||
            k == .kV then
          handleKeyTail e
        else some [i + 1]
      | none => handleKeyTail e
  else handleKeyTail e

/-! ## Theorems -/

/-- Claim C9: the key-to-byte mapping emits exactly the standard xterm
byte strings — Up arrow produces `ESC [ A` (bytes `27 91 65`), F5
produces `ESC [ 1 5 ~` (bytes `27 91 49 53 126`), and Ctrl+C produces
the single byte `0x03`, byte-exact. -/
theorem key_mapping_xterm_bytes :
    handle_key_event ⟨.kUp, false, false, false, []⟩ false = some [27, 91, 65]
  ∧ handle_key_event ⟨.kF5, false, false, false, []⟩ false =
      some [27, 91, 49, 53, 126]
  ∧ handle_key_event ⟨.kC, true, false, false, [3]⟩ false = some [3] := by
  decide

/-- Claim C10: writing a character at coordinates outside
`[0, rows) × [0, cols)` with `set_char` leaves the widget unchanged, and
reading such coordinates with `get_char` returns `none`; no indexing
happens outside the guard. -/
theorem char_ops_out_of_bounds (w : GridWidget) (t : Theme) (row col : Int)
    (ch : Char) (fg bg : Option Color) (b u : Bool)
    (h : ¬ (0 ≤ row ∧ row < (w.rows : Int) ∧ 0 ≤ col ∧ col < (w.cols : Int))) :
    set_char w t row col ch fg bg b u = w ∧ get_char w row col = none := by
  constructor
  · simp [set_char, h]
  · simp [get_char, h]

/-- Witness for `char_ops_out_of_bounds` at a concrete out-of-bounds
coordinate. -/
theorem char_ops_out_of_bounds_witness :
    set_char ⟨2, 2, []⟩ ⟨0, 0⟩ 5 0 'x' none none false false = ⟨2, 2, []⟩
  ∧ get_char ⟨2, 2, []⟩ 5 0 = none :=
  char_ops_out_of_bounds ⟨2, 2, []⟩ ⟨0, 0⟩ 5 0 'x' none none false false
    (by decide)

/-- Claim C7: after `update_cursor` (which feeds its clamped result
through `set_cursor_position`), the displayed cursor satisfies
`0 ≤ row < rows` and `0 ≤ col < cols` whenever the grid is non-empty;
out-of-range coordinates are clamped, never indexed. -/
theorem cursor_always_in_bounds (alt : Bool)
    (screen_lines cursor_y cursor_x : Int) (gridRows gridCols : Nat)
    (hr : 1 ≤ gridRows) (hc : 1 ≤ gridCols) :
    0 ≤ (update_cursor alt screen_lines cursor_y cursor_x gridRows gridCols).1
  ∧ (update_cursor alt screen_lines cursor_y cursor_x gridRows gridCols).1 <
      (gridRows : Int)
  ∧ 0 ≤ (update_cursor alt screen_lines cursor_y cursor_x gridRows gridCols).2
  ∧ (update_cursor alt screen_lines cursor_y cursor_x gridRows gridCols).2 <
      (gridCols : Int) := by
  unfold update_cursor set_cursor_position
  cases alt <;> simp <;> omega

/-- Witness for `cursor_always_in_bounds` on a concrete 24×80 grid with
a wildly out-of-range pyte cursor. -/
theorem cursor_always_in_bounds_witness :
    0 ≤ (update_cursor false 1000 3 500 24 80).1
  ∧ (update_cursor false 1000 3 500 24 80).1 < (24 : Int)
  ∧ 0 ≤ (update_cursor false 1000 3 500 24 80).2
  ∧ (update_cursor false 1000 3 500 24 80).2 < (80 : Int) :=
  cursor_always_in_bounds false 1000 3 500 24 80 (by decide) (by decide)

/-- Claim C2: the wrapped feed path never lets an exception caused by
protocol input cross the boundary: every generic exception and every
keyword-argument `TypeError` raised inside `stream.feed` is swallowed
and `safe_feed` returns normally (the only re-raised exception is a
non-keyword `TypeError`, which cannot arise from byte input). -/
theorem feed_absorbs_protocol_errors (is_closing : Bool)
    (inner : Option FeedExn) (h : isProtocolExn inner = true) :
    safe_feed is_closing inner = none := by
  cases inner with
  | none => cases is_closing <;> rfl
  | some e =>
    cases e with
    | typeError kw =>
      cases kw with
      | true => cases is_closing <;> rfl
      | false => simp [isProtocolExn] at h
    | otherExn => cases is_closing <;> rfl

/-- Witness for `feed_absorbs_protocol_errors`: a generic pyte parsing
exception is absorbed. -/
theorem feed_absorbs_protocol_errors_witness :
    safe_feed false (some .otherExn) = none :=
  feed_absorbs_protocol_errors false (some .otherExn) (by decide)

/-- Counterexample to claim C5: the claim says private modes 47 and
1047 also switch to the alternate screen, but feeding `ESC [ ? 4 7 h`
or `ESC [ ? 1 0 4 7 h` leaves `in_alternate_screen` at `false` — only
the literal `1049` markers are recognized. -/
theorem modes_47_1047_do_not_switch :
    handle_escape_sequences
      [Char.ofNat 27, '[', '?', '4', '7', 'h'] false = false
  ∧ handle_escape_sequences
      [Char.ofNat 27, '[', '?', '1', '0', '4', '7', 'h'] false = false := by
  decide

/-- Claim C5 (amended): only the literal chunk substrings
`ESC [ ? 1 0 4 9 h` / `ESC [ ? 1 0 4 9 l` toggle the alternate-screen
flag (set enters Alternate, reset returns to Primary); modes 47 and
1047 leave it unchanged; the initial state is Primary, and after the
`1049l` reset the flag reads `false`. -/
theorem alt_screen_flag_1049_only :
    initial_in_alternate_screen = false
  ∧ (∀ alt : Bool, handle_escape_sequences altOnSeq alt = true)
  ∧ (∀ alt : Bool, handle_escape_sequences altOffSeq alt = false)
  ∧ (∀ alt : Bool,
      handle_escape_sequences [Char.ofNat 27, '[', '?', '4', '7', 'h'] alt = alt
    ∧ handle_escape_sequences
        [Char.ofNat 27, '[', '?', '1', '0', '4', '7', 'h'] alt = alt
    ∧ handle_escape_sequences [Char.ofNat 27, '[', '?', '4', '7', 'l'] alt = alt
    ∧ handle_escape_sequences
        [Char.ofNat 27, '[', '?', '1', '0', '4', '7', 'l'] alt = alt) := by
  decide

/-- Counterexample to claim C1: the legal sequence `ESC [ ? 1 0 4 9 h`
fed in one call sets the alternate-screen flag, but fed split at
`k = 4` (two chunks `ESC [ ? 1` and `0 4 9 h`) it does not — the flag
is recomputed per chunk by substring search, so the final display state
differs between the two deliveries. -/
theorem split_alt_marker_flag_differs :
    handle_escape_sequences altOnSeq false = true
  ∧ handle_escape_sequences (altOnSeq.drop 4)
      (handle_escape_sequences (altOnSeq.take 4) false) = false := by
  decide

/-- Counterexample to claim C4: with the primary screen active, a row
that was merely changed in place (pyte marks any touched row dirty; no
scroll happened) is nevertheless pushed to scrollback — the update loop
pushes every dirty in-bounds row, so the scrollback does not stay
empty. -/
theorem changed_row_pushed_to_scrollback :
    processDirty false [0] [['X']] [] = [['X']]
  ∧ ([['X']] : List Row) ≠ [] := by
  decide

/-- Feeding the concatenation of two chunks equals feeding them one
after the other, carrying the parser state: the state-passing
`pfeed` composes over `++`. -/
theorem pfeed_append (s : PState) (a b : List Nat) :
    pfeed s (a ++ b) =
      ((pfeed (pfeed s a).1 b).1, (pfeed s a).2 ++ (pfeed (pfeed s a).1 b).2) := by
  induction a generalizing s with
  | nil => simp [pfeed]
  | cons x xs ih => simp [pfeed, ih]

/-- Claim C1 (amended): the byte-stream parser is restartable — for
every byte sequence and every split point `k`, feeding the whole
sequence and feeding the two pieces in consecutive calls reach the same
parser state and emit the same commands, hence the same screen
mutations.  (The repository's separate alternate-screen flag is *not*
split-invariant; see `split_alt_marker_flag_differs`.) -/
theorem parser_split_feed_equivalent (s : PState) (data : List Nat) (k : Nat) :
    (pfeed (pfeed s (data.take k)).1 (data.drop k)).1 = (pfeed s data).1
  ∧ (pfeed s (data.take k)).2 ++ (pfeed (pfeed s (data.take k)).1 (data.drop k)).2
      = (pfeed s data).2 := by
  have h := pfeed_append s (data.take k) (data.drop k)
  rw [List.take_append_drop] at h
  exact ⟨by rw [h], by rw [h]⟩

/-- Folding pushes over a bounded scrollback keeps exactly the last
`max_scrollback_size` entries of `sb ++ l`, in push order. -/
theorem foldl_add_to_scrollback (l : List Row) (sb : List Row)
    (hsb : sb.length ≤ max_scrollback_size) :
    l.foldl add_to_scrollback sb =
      (sb ++ l).drop ((sb ++ l).length - max_scrollback_size) := by
  induction l generalizing sb with
  | nil =>
    simp only [List.foldl_nil, List.append_nil]
    rw [Nat.sub_eq_zero_of_le hsb, List.drop_zero]
  | cons x xs ih =>
    simp only [List.foldl_cons]
    by_cases hfull : max_scrollback_size ≤ sb.length
    · have hlen : sb.length = 1000 := by
        have h := Nat.le_antisymm hsb hfull
        simpa [max_scrollback_size] using h
      have hpos : 1 ≤ sb.length := by omega
      rw [add_to_scrollback, if_pos hfull]
      rw [ih (sb.drop 1 ++ [x]) (by simp [max_scrollback_size]; omega)]
      have hL : (sb.drop 1 ++ [x]) ++ xs = (sb ++ x :: xs).drop 1 := by
        rw [List.drop_append_of_le_length hpos]
        simp
      rw [hL, List.drop_drop]
      have harith :
          1 + (((sb ++ x :: xs).drop 1).length - max_scrollback_size) =
            (sb ++ x :: xs).length - max_scrollback_size := by
        simp only [List.length_drop, List.length_append, List.length_cons,
          max_scrollback_size]
        omega
      rw [harith]
    · rw [add_to_scrollback, if_neg hfull]
      rw [ih (sb ++ [x]) (by simp; omega)]
      simp

/-- Claim C3: for every sequence of pushes starting from the empty
scrollback, the buffer length never exceeds the capacity
`max_scrollback_size = 1000`, and the final content is exactly the last
`capacity` pushed rows in push order — i.e. at capacity the oldest row
is evicted first (FIFO). -/
theorem scrollback_bounded_fifo (pushes : List Row) :
    (pushes.foldl add_to_scrollback []).length ≤ max_scrollback_size
  ∧ pushes.foldl add_to_scrollback [] =
      pushes.drop (pushes.length - max_scrollback_size) := by
  have h := foldl_add_to_scrollback pushes [] (by simp)
  simp only [List.nil_append] at h
  refine ⟨?_, h⟩
  rw [h, List.length_drop]
  omega

/-- The drain loop of `processDirty` below capacity appends exactly the
in-bounds dirty rows, in drain order. -/
theorem processDirty_drain (dirty : List Nat) (buffer sb : List Row)
    (hcap : sb.length + dirty.length ≤ max_scrollback_size) :
    dirty.foldl
        (fun acc line_index =>
          if h : line_index < buffer.length then
            add_to_scrollback acc (buffer.get ⟨line_index, h⟩)
          else acc)
        sb
      = sb ++ dirty.filterMap (fun i => buffer[i]?) := by
  induction dirty generalizing sb with
  | nil => simp
  | cons i rest ih =>
    simp only [List.length_cons] at hcap
    simp only [List.foldl_cons, List.filterMap_cons]
    by_cases hi : i < buffer.length
    · rw [dif_pos hi]
      rw [add_to_scrollback, if_neg (by omega)]
      rw [ih (sb ++ [buffer.get ⟨i, hi⟩]) (by simp; omega)]
      rw [List.getElem?_eq_getElem hi]
      simp [List.get_eq_getElem]
    · rw [dif_neg hi]
      rw [ih sb (by omega)]
      rw [List.getElem?_eq_none (by omega)]

/-- Claim C4 (amended): while the alternate screen is active no row is
ever pushed to scrollback, and on the primary screen the update loop
pushes *every* dirty in-bounds row — including rows that merely changed
in place without being scrolled out — appending them in drain order
(stated below capacity, where no eviction interferes). -/
theorem dirty_rows_all_pushed :
    (∀ (dirty : List Nat) (buffer sb : List Row),
      processDirty true dirty buffer sb = sb)
  ∧ (∀ (dirty : List Nat) (buffer sb : List Row),
      sb.length + dirty.length ≤ max_scrollback_size →
      processDirty false dirty buffer sb =
        sb ++ dirty.filterMap (fun i => buffer[i]?)) := by
  constructor
  · intro dirty buffer sb
    rfl
  · intro dirty buffer sb hcap
    rw [processDirty, if_neg (by simp)]
    exact processDirty_drain dirty buffer sb hcap

/-- Witness for `dirty_rows_all_pushed`: three dirty rows on a
three-row primary screen are all pushed; in alternate mode nothing is
pushed. -/
theorem dirty_rows_all_pushed_witness :
    processDirty true [0, 1] [['A'], ['B']] [] = []
  ∧ processDirty false [0, 1] [['A'], ['B']] [] =
      [] ++ [0, 1].filterMap (fun i => [['A'], ['B']][i]?) :=
  ⟨dirty_rows_all_pushed.1 [0, 1] [['A'], ['B']] [],
   dirty_rows_all_pushed.2 [0, 1] [['A'], ['B']] [] (by decide)⟩

/-- `getD` after `set`: the written value inside the bounds, the old
value everywhere else. -/
theorem getD_set_list {α : Type} (l : List α) (i j : Nat) (a d : α) :
    (l.set i a).getD j d = if i = j ∧ i < l.length then a else l.getD j d := by
  simp only [List.getD_eq_getElem?_getD, List.getElem?_set]
  by_cases h : i = j
  · subst h
    by_cases h2 : i < l.length
    · simp [h2]
    · rw [if_pos rfl, if_neg h2,
        if_neg (show ¬ (i = i ∧ i < l.length) by tauto),
        List.getElem?_eq_none (Nat.le_of_not_lt h2)]
  · simp [h]

/-- `copyCell` keeps the number of rows. -/
theorem length_copyCell (o : List (List GridCell)) (row col : Nat)
    (g : List (List GridCell)) : (copyCell o row g col).length = g.length := by
  simp [copyCell]

/-- `copyCell` keeps every row's length. -/
theorem rowLen_copyCell (o : List (List GridCell)) (row col : Nat)
    (g : List (List GridCell)) (r : Nat) :
    ((copyCell o row g col).getD r []).length = (g.getD r []).length := by
  unfold copyCell
  rw [getD_set_list]
  by_cases h : row = r ∧ row < g.length
  · rw [if_pos h, ← h.1, List.length_set]
  · rw [if_neg h]

/-- Pointwise description of one inner-loop iteration. -/
theorem cellAt_copyCell (o : List (List GridCell)) (row col : Nat)
    (g : List (List GridCell)) (r c : Nat) :
    cellAt (copyCell o row g col) r c =
      if row = r ∧ row < g.length ∧ col = c ∧ col < (g.getD row []).length then
        cellAt o row col
      else cellAt g r c := by
  unfold copyCell cellAt
  rw [getD_set_list]
  by_cases h1 : row = r ∧ row < g.length
  · rw [if_pos h1]
    obtain ⟨h1a, h1b⟩ := h1
    subst h1a
    rw [getD_set_list]
    by_cases h2 : col = c ∧ col < (g.getD row []).length
    · rw [if_pos h2, if_pos ⟨rfl, h1b, h2.1, h2.2⟩]
    · rw [if_neg h2, if_neg (by tauto)]
  · rw [if_neg h1, if_neg (by tauto)]

/-- `copyRow` keeps the number of rows. -/
theorem length_copyRow (o : List (List GridCell)) (cc : Nat)
    (g : List (List GridCell)) (row : Nat) :
    (copyRow o cc g row).length = g.length := by
  unfold copyRow
  induction cc with
  | zero => simp
  | succ n ih =>
    rw [List.range_succ, List.foldl_append]
    simp only [List.foldl_cons, List.foldl_nil]
    rw [length_copyCell, ih]

/-- `copyRow` keeps every row's length. -/
theorem rowLen_copyRow (o : List (List GridCell)) (cc : Nat)
    (g : List (List GridCell)) (row r : Nat) :
    ((copyRow o cc g row).getD r []).length = (g.getD r []).length := by
  unfold copyRow
  induction cc with
  | zero => simp
  | succ n ih =>
    rw [List.range_succ, List.foldl_append]
    simp only [List.foldl_cons, List.foldl_nil]
    rw [rowLen_copyCell, ih]

/-- Pointwise description of the inner copy loop: row `row` receives
the old grid's cells at columns `< copy_cols`, everything else is
untouched. -/
theorem cellAt_copyRow (o : List (List GridCell)) (cc : Nat)
    (g : List (List GridCell)) (row : Nat) (hrow : row < g.length)
    (r c : Nat) :
    cellAt (copyRow o cc g row) r c =
      if row = r ∧ c < cc ∧ c < (g.getD row []).length then cellAt o row c
      else cellAt g r c := by
  unfold copyRow
  induction cc with
  | zero =>
    rw [if_neg (by omega)]
    rfl
  | succ n ih =>
    rw [List.range_succ, List.foldl_append]
    simp only [List.foldl_cons, List.foldl_nil]
    rw [cellAt_copyCell]
    have hlen : ((List.range n).foldl (copyCell o row) g).length = g.length :=
      length_copyRow o n g row
    have hrlen :
        (((List.range n).foldl (copyCell o row) g).getD row []).length =
          (g.getD row []).length :=
      rowLen_copyRow o n g row row
    by_cases hhit :
        row = r ∧ row < ((List.range n).foldl (copyCell o row) g).length ∧
          n = c ∧ n < (((List.range n).foldl (copyCell o row) g).getD row []).length
    · rw [if_pos hhit]
      obtain ⟨ha, _, hcn, hlt⟩ := hhit
      rw [hrlen] at hlt
      rw [if_pos ⟨ha, by omega, by omega⟩, hcn]
    · rw [if_neg hhit, ih]
      rw [hlen, hrlen] at hhit
      by_cases hgoal : row = r ∧ c < n + 1 ∧ c < (g.getD row []).length
      · rw [if_pos hgoal]
        have hcn : c < n := by
          rcases Nat.lt_succ_iff_lt_or_eq.mp hgoal.2.1 with h | h
          · exact h
          · exact absurd ⟨hgoal.1, hrow, h.symm, h ▸ hgoal.2.2⟩ hhit
        rw [if_pos ⟨hgoal.1, hcn, hgoal.2.2⟩]
      · rw [if_neg hgoal, if_neg (by tauto)]

/-- Shape of the grids built by `init_grid`. -/
theorem init_grid_shape (rows cols : Nat) (t : Theme) :
    (init_grid rows cols t).length = rows
  ∧ (∀ r, r < rows → ((init_grid rows cols t).getD r []).length = cols)
  ∧ (∀ r c, r < rows → c < cols → cellAt (init_grid rows cols t) r c =
      blankCell t) := by
  refine ⟨by simp [init_grid], ?_, ?_⟩
  · intro r hr
    simp [init_grid, List.getD_eq_getElem?_getD, List.getElem?_replicate, hr]
  · intro r c hr hc
    simp [init_grid, cellAt, List.getD_eq_getElem?_getD,
      List.getElem?_replicate, hr, hc]

/-- The outer copy loop keeps the number of rows. -/
theorem length_resizeLoop (o : List (List GridCell)) (cc : Nat)
    (fresh : List (List GridCell)) (n : Nat) :
    ((List.range n).foldl (copyRow o cc) fresh).length = fresh.length := by
  induction n with
  | zero => rfl
  | succ k ih =>
    rw [List.range_succ, List.foldl_append]
    simp only [List.foldl_cons, List.foldl_nil]
    rw [length_copyRow, ih]

/-- The outer copy loop keeps every row's length. -/
theorem rowLen_resizeLoop (o : List (List GridCell)) (cc : Nat)
    (fresh : List (List GridCell)) (n r' : Nat) :
    (((List.range n).foldl (copyRow o cc) fresh).getD r' []).length =
      (fresh.getD r' []).length := by
  induction n with
  | zero => rfl
  | succ k ih =>
    rw [List.range_succ, List.foldl_append]
    simp only [List.foldl_cons, List.foldl_nil]
    rw [rowLen_copyRow, ih]

/-- Pointwise description of the outer copy loop, starting from any
grid `fresh`: rows `< n` receive the old cells at columns
`< copy_cols`, everything else keeps `fresh`'s value. -/
theorem cellAt_resizeLoop (o : List (List GridCell)) (cc : Nat)
    (fresh : List (List GridCell)) (n : Nat) (hn : n ≤ fresh.length)
    (r c : Nat) :
    cellAt ((List.range n).foldl (copyRow o cc) fresh) r c =
      if r < n ∧ c < cc ∧ c < (fresh.getD r []).length then cellAt o r c
      else cellAt fresh r c := by
  induction n with
  | zero =>
    rw [if_neg (by omega)]
    rfl
  | succ m ih =>
    rw [List.range_succ, List.foldl_append]
    simp only [List.foldl_cons, List.foldl_nil]
    have hm : m ≤ fresh.length := by omega
    have hlenF := length_resizeLoop o cc fresh m
    have hrlenF := rowLen_resizeLoop o cc fresh m
    rw [cellAt_copyRow o cc _ m (by rw [hlenF]; omega), ih hm, hrlenF]
    by_cases hhit : m = r ∧ c < cc ∧ c < (fresh.getD m []).length
    · obtain ⟨h1, h2, h3⟩ := hhit
      rw [if_pos ⟨h1, h2, h3⟩,
        if_pos ⟨by omega, h2, by rw [← h1]; exact h3⟩, h1]
    · rw [if_neg hhit]
      by_cases hprev : r < m ∧ c < cc ∧ c < (fresh.getD r []).length
      · rw [if_pos hprev, if_pos ⟨by omega, hprev.2.1, hprev.2.2⟩]
      · have hcond : ¬ (r < m + 1 ∧ c < cc ∧ c < (fresh.getD r []).length) := by
          rintro ⟨ha, hb, hc2⟩
          rcases (by omega : r < m ∨ r = m) with h | h
          · exact hprev ⟨h, hb, hc2⟩
          · exact hhit ⟨h.symm, hb, by rw [← h]; exact hc2⟩
        rw [if_neg hprev, if_neg hcond]

/-- `resize_grid` produces `new_rows` rows. -/
theorem length_resize_grid (o : List (List GridCell)) (nc nr : Nat)
    (t : Theme) : (resize_grid o nc nr t).length = nr := by
  simp only [resize_grid]
  rw [length_resizeLoop]
  simp [init_grid]

/-- Every row of `resize_grid`'s result has `new_cols` cells. -/
theorem rowLen_resize_grid (o : List (List GridCell)) (nc nr : Nat)
    (t : Theme) (r : Nat) (hr : r < nr) :
    ((resize_grid o nc nr t).getD r []).length = nc := by
  simp only [resize_grid]
  rw [rowLen_resizeLoop]
  exact (init_grid_shape nr nc t).2.1 r hr

/-- Pointwise description of `resize_grid`: the top-left overlapping
rectangle keeps the old content, everything else is blank. -/
theorem cellAt_resize_grid (o : List (List GridCell)) (nc nr : Nat)
    (t : Theme) (r c : Nat) (hr : r < nr) (hc : c < nc) :
    cellAt (resize_grid o nc nr t) r c =
      if r < o.length ∧ c < (o.headD []).length then cellAt o r c
      else blankCell t := by
  simp only [resize_grid]
  rw [cellAt_resizeLoop o (min (o.headD []).length nc) (init_grid nr nc t)
      (min o.length nr)
      (by rw [(init_grid_shape nr nc t).1]; exact Nat.min_le_right _ _) r c]
  rw [(init_grid_shape nr nc t).2.1 r hr]
  by_cases hcase : r < o.length ∧ c < (o.headD []).length
  · rw [if_pos (by omega), if_pos hcase]
  · rw [if_neg (by omega), if_neg hcase]
    exact (init_grid_shape nr nc t).2.2 r c hr hc

/-- Claim C6: on every resize the top-left-aligned overlapping
rectangle of `min(old, new)` rows by `min(old, new)` cols keeps its
content unchanged, every newly exposed cell is blank with the theme's
default attributes, the result has exactly the new dimensions, and the
cursor is clamped into the new bounds (an in-bounds cursor is left
where it was — not rescaled). -/
theorem resize_preserves_overlap (old_grid : List (List GridCell))
    (new_cols new_rows : Nat) (t : Theme) (r c : Nat) (row col : Int)
    (hr : r < new_rows) (hc : c < new_cols) :
    (resize_grid old_grid new_cols new_rows t).length = new_rows
  ∧ ((resize_grid old_grid new_cols new_rows t).getD r []).length = new_cols
  ∧ cellAt (resize_grid old_grid new_cols new_rows t) r c =
      (if r < old_grid.length ∧ c < (old_grid.headD []).length then
        cellAt old_grid r c
      else blankCell t)
  ∧ 0 ≤ (set_cursor_position new_rows new_cols row col).1
  ∧ (set_cursor_position new_rows new_cols row col).1 < (new_rows : Int)
  ∧ 0 ≤ (set_cursor_position new_rows new_cols row col).2
  ∧ (set_cursor_position new_rows new_cols row col).2 < (new_cols : Int)
  ∧ (0 ≤ row ∧ row < (new_rows : Int) →
      (set_cursor_position new_rows new_cols row col).1 = row)
  ∧ (0 ≤ col ∧ col < (new_cols : Int) →
      (set_cursor_position new_rows new_cols row col).2 = col) := by
  refine ⟨length_resize_grid old_grid new_cols new_rows t,
    rowLen_resize_grid old_grid new_cols new_rows t r hr,
    cellAt_resize_grid old_grid new_cols new_rows t r c hr hc, ?_⟩
  unfold set_cursor_position
  simp only
  refine ⟨?_, ?_, ?_, ?_, ?_, ?_⟩ <;> omega

/-- Witness for `resize_preserves_overlap`: growing a blank 2×2 grid to
3×3, inspecting the newly exposed cell (1,2) and clamping the cursor
(1,−5). -/
theorem resize_preserves_overlap_witness :
    (resize_grid (init_grid 2 2 ⟨1, 2⟩) 3 3 ⟨1, 2⟩).length = 3
  ∧ ((resize_grid (init_grid 2 2 ⟨1, 2⟩) 3 3 ⟨1, 2⟩).getD 1 []).length = 3
  ∧ cellAt (resize_grid (init_grid 2 2 ⟨1, 2⟩) 3 3 ⟨1, 2⟩) 1 2 =
      (if 1 < (init_grid 2 2 ⟨1, 2⟩).length ∧
          2 < ((init_grid 2 2 ⟨1, 2⟩).headD []).length then
        cellAt (init_grid 2 2 ⟨1, 2⟩) 1 2
      else blankCell ⟨1, 2⟩)
  ∧ 0 ≤ (set_cursor_position 3 3 1 (-5)).1
  ∧ (set_cursor_position 3 3 1 (-5)).1 < (3 : Int)
  ∧ 0 ≤ (set_cursor_position 3 3 1 (-5)).2
  ∧ (set_cursor_position 3 3 1 (-5)).2 < (3 : Int)
  ∧ (0 ≤ (1 : Int) ∧ (1 : Int) < (3 : Int) →
      (set_cursor_position 3 3 1 (-5)).1 = 1)
  ∧ (0 ≤ (-5 : Int) ∧ (-5 : Int) < (3 : Int) →
      (set_cursor_position 3 3 1 (-5)).2 = -5) :=
  resize_preserves_overlap (init_grid 2 2 ⟨1, 2⟩) 3 3 ⟨1, 2⟩ 1 2 1 (-5)
    (by decide) (by decide)

/-- Counterexample to claim C8: a degenerate pixel resize (0×0 pixels,
8×16-pixel glyphs, current grid 2×2) is *not* rejected as a no-op — the
requested dimensions are coerced to `max(1, ·)` and the grid is resized
to 1×1, so neither the dimensions nor the content are retained. -/
theorem degenerate_resize_not_noop :
    (resizeEvent 2 2 (init_grid 2 2 ⟨1, 2⟩) 0 0 8 16 ⟨1, 2⟩).1 = 1
  ∧ resizeEvent 2 2 (init_grid 2 2 ⟨1, 2⟩) 0 0 8 16 ⟨1, 2⟩ ≠
      (2, 2, init_grid 2 2 ⟨1, 2⟩) := by
  decide

/-- Claim C8 (amended): a resize request whose pixel size yields less
than one column or row is coerced to at least 1×1 (never zero) rather
than rejected; the prior buffer is retained exactly when the computed
dimensions already equal the current ones. -/
theorem resize_dims_at_least_one (cols rows : Nat)
    (g : List (List GridCell)) (w h cw ch : Nat) (t : Theme) :
    1 ≤ (resizeEvent cols rows g w h cw ch t).1
  ∧ 1 ≤ (resizeEvent cols rows g w h cw ch t).2.1
  ∧ (max 1 (w / cw) = cols → max 1 (h / ch) = rows →
      resizeEvent cols rows g w h cw ch t = (cols, rows, g)) := by
  simp only [resizeEvent]
  by_cases hch : max 1 (w / cw) ≠ cols ∨ max 1 (h / ch) ≠ rows
  · rw [if_pos hch]
    exact ⟨Nat.le_max_left _ _, Nat.le_max_left _ _,
      fun h1 h2 => absurd hch (by tauto)⟩
  · rw [if_neg hch]
    push_neg at hch
    refine ⟨?_, ?_, fun _ _ => rfl⟩
    · show 1 ≤ cols
      rw [← hch.1]
      exact Nat.le_max_left _ _
    · show 1 ≤ rows
      rw [← hch.2]
      exact Nat.le_max_left _ _

/-- Witness for `resize_dims_at_least_one`: a pixel size matching the
current 80×24 grid leaves the grid untouched. -/
theorem resize_dims_at_least_one_witness :
    1 ≤ (resizeEvent 80 24 [] 160 48 2 2 ⟨1, 2⟩).1
  ∧ 1 ≤ (resizeEvent 80 24 [] 160 48 2 2 ⟨1, 2⟩).2.1
  ∧ resizeEvent 80 24 [] 160 48 2 2 ⟨1, 2⟩ = (80, 24, []) :=
  ⟨(resize_dims_at_least_one 80 24 [] 160 48 2 2 ⟨1, 2⟩).1,
   (resize_dims_at_least_one 80 24 [] 160 48 2 2 ⟨1, 2⟩).2.1,
   (resize_dims_at_least_one 80 24 [] 160 48 2 2 ⟨1, 2⟩).2.2
     (by decide) (by decide)⟩

end CoolPyTerm
